import Mathlib

/-!
Shallow embedding of the kudamono conversational-agent runtime
(result.ts, conversation.ts, agent.ts with its two variants, anthropic.ts,
and the interactive turn-processing loop), together with theorems checking
the natural-language specification against this code.
-/

set_option linter.unusedVariables false

/-- `Result<K, E>` from result.ts: a two-variant outcome wrapper,
`{success: true, data}` or `{success: false, error}`. -/
inductive MResult (K E : Type) where
  | ok (data : K)
  | err (error : E)
deriving Repr, DecidableEq

/-- `isOk` from result.ts. -/
def MResult.isOk {K E : Type} : MResult K E → Bool
  | .ok _ => true
  | .err _ => false

/-- `isError` from result.ts. -/
def MResult.isError {K E : Type} : MResult K E → Bool
  | .ok _ => false
  | .err _ => true

/-- A JavaScript `Error` object as the code observes it: its `message`
(set by `new Error(message)`) and its `stack` string property. -/
structure JsError where
  message : String
  stack : String
deriving Repr, DecidableEq

/-- `new Error(m)`: the runtime materialises `stack` with a first line
carrying the message (`Error: m`); the trailing call-site frames are
elided here since the code never inspects them. -/
def jsNewError (m : String) : JsError :=
  { message := m, stack := "Error: " ++ m }

/-- Untyped structured values (`unknown` / JSON bodies) exchanged with the
model.  Numeric values are modelled as integers: no claim involves a
fractional number. -/
inductive Json where
  | null
  | bool (b : Bool)
  | num (n : Int)
  | str (s : String)
  | arr (items : List Json)
  | obj (fields : List (String × Json))

/-- First value bound to `key` in a JS object literal, as property access
reads it. -/
def jsonLookup (fields : List (String × Json)) (key : String) : Option Json :=
  match fields with
  | [] => none
  | (k, v) :: rest => if k = key then some v else jsonLookup rest key

/-- JS template-literal coercion `${v}` of a structured value: objects
render as `[object Object]`, arrays join their elements with commas. -/
def jsTemplateStr : Json → String
  | .null => "null"
  | .bool true => "true"
  | .bool false => "false"
  | .num n => toString n
  | .str s => s
  | .arr items => String.intercalate "," (items.map fun i => jsTemplateStrShallow i)
  | .obj _ => "[object Object]"
where
  /-- One-level coercion for array elements (arrays in the claims are flat). -/
  jsTemplateStrShallow : Json → String
  | .null => "null"
  | .bool true => "true"
  | .bool false => "false"
  | .num n => toString n
  | .str s => s
  | .arr _ => ""
  | .obj _ => "[object Object]"

/-- A tool as `agent.tool` (canonical variant, agent.ts lines 42-62)
receives it: a name, an optional description, a zod schema — embedded as
its `safeParse` validation function together with the JS coercion of raw
arguments used in the error message — and the registered handler. -/
structure ToolSpec (Raw Parsed : Type) where
  name : String
  description : Option String := none
  safeParse : Raw → Option Parsed
  showArgs : Raw → String
  handler : Parsed → MResult String JsError

/-- The validation-failure message built by the canonical `process`:
`Wrong args for tool (${name}) used by Kudamono\n:${args}`. -/
def wrongArgsMsg (name argsShown : String) : String :=
  "Wrong args for tool (" ++ name ++ ") used by Kudamono\n:" ++ argsShown

/-- `process` of the canonical `agent.tool` (agent.ts lines 47-59):
`schema.safeParse(args)`; on failure return
`err(new Error("Wrong args for tool (name) ..."))`, otherwise
`handler(parsedArgs.data)`.  The second component records every call made
to the registered handler (the argument it received), so that
"the handler is (not) called" is observable. -/
def ToolSpec.process {Raw Parsed : Type} (t : ToolSpec Raw Parsed) (args : Raw) :
    MResult String JsError × List Parsed :=
  match t.safeParse args with
  | none => (.err (jsNewError (wrongArgsMsg t.name (t.showArgs args))), [])
  | some parsed => (t.handler parsed, [parsed])

/-- The `ZodError` thrown by zod's `schema.parse` on invalid input. -/
inductive ZodError where
  | invalid
deriving Repr, DecidableEq

/-- A tool of the event-emitter agent variant (second document of
agent.ts): same shape, but its handler may produce any result type. -/
structure ToolSpecE (Raw Parsed K E : Type) where
  name : String
  description : Option String := none
  safeParse : Raw → Option Parsed
  handler : Parsed → MResult K E

/-- `process` of the event-emitter variant's `agent.tool` (agent.ts
lines 354-357): `const parsedArgs = schema.parse(args); return
handler(parsedArgs);` — `schema.parse` throws `ZodError` on invalid
input, and nothing catches it, so the whole call rejects (`Except.error`).
The list again records handler calls. -/
def ToolSpecE.process {Raw Parsed K E : Type} (t : ToolSpecE Raw Parsed K E) (args : Raw) :
    Except ZodError (MResult K E × List Parsed) :=
  match t.safeParse args with
  | none => .error ZodError.invalid
  | some parsed => .ok (t.handler parsed, [parsed])

/-- `safeParse` of the schema `z.object({ a: z.number(), b: z.number() })`
declared for `add_numbers`: an object whose `a` and `b` properties are
numbers; unknown keys are stripped, anything else fails. -/
def addNumbersSafeParse : Json → Option (Int × Int)
  | .obj fields =>
      match jsonLookup fields "a", jsonLookup fields "b" with
      | some (.num a), some (.num b) => some (a, b)
      | _, _ => none
  | _ => none

/-- The `add_numbers` tool of the canonical agent (agent.ts lines
215-224): handler returns `ok(JSON.stringify(a + b))`. -/
def addNumbersTool : ToolSpec Json (Int × Int) :=
  { name := "add_numbers"
    description := some "Add two numbers"
    safeParse := addNumbersSafeParse
    showArgs := jsTemplateStr
    handler := fun p => .ok (toString (p.1 + p.2)) }

/-- The `add_numbers` tool of the event-emitter agent variant (agent.ts
lines 440-449): same schema, handler returns `ok(a + b)` (a number). -/
def addNumbersToolE : ToolSpecE Json (Int × Int) Int JsError :=
  { name := "add_numbers"
    description := some "Add two numbers"
    safeParse := addNumbersSafeParse
    handler := fun p => .ok (p.1 + p.2) }

/-! ## Anthropic message types (anthropic.ts) -/

/-- `ToolUseContent`: a tool-use content block produced by the model. -/
structure ToolUseContent where
  id : String
  input : Json
  name : String

/-- The content blocks of a `Message` (`ToolUseContent | TextContent`). -/
inductive ContentBlock where
  | text (text : String)
  | toolUse (c : ToolUseContent)

/-- The `stop_reason` values of anthropic.ts (besides `null`). -/
inductive StopReason where
  | endTurn
  | maxTokens
  | stopSequence
  | toolUse
  | pauseTurn
deriving Repr, DecidableEq

/-- The `Message` returned by the Anthropic endpoint; `type: "message"`
and `role: "assistant"` are constant in the source and elided. -/
structure Message where
  id : String
  model : String
  content : List ContentBlock
  stop_reason : Option StopReason
  stop_sequence : Option String

/-- `ToolResultMessage` from anthropic.ts. -/
structure ToolResultMessage where
  tool_use_id : String
  content : String
  is_error : Bool

/-! ## Conversation (conversation.ts) -/

/-- The roles a `ConversationItem` may carry. -/
inductive Role where
  | user
  | assistant
deriving Repr, DecidableEq

/-- One element of a `ConversationItem`'s block array
(`ToolResultMessage | ToolUseMessage`). -/
inductive HistoryBlock where
  | toolResult (r : ToolResultMessage)
  | toolUse (u : ToolUseContent)

/-- `content` of a `ConversationItem`: a string or an array of blocks. -/
inductive ItemContent where
  | str (s : String)
  | blocks (bs : List HistoryBlock)

/-- `ConversationItem` from conversation.ts. -/
structure ConversationItem where
  role : Role
  content : ItemContent

/-- `Conversation`: the ordered turn log. -/
structure Conversation where
  history : List ConversationItem

/-- `Conversation.addToHistory`: push onto the end of `history`. -/
def Conversation.addToHistory (c : Conversation) (item : ConversationItem) : Conversation :=
  { history := c.history ++ [item] }

/-- `Conversation.addUserContent`: push a user turn wrapping plain text. -/
def Conversation.addUserContent (c : Conversation) (content : String) : Conversation :=
  { history := c.history ++ [{ role := .user, content := .str content }] }

/-! ## Tool registry (`agent.tools`, a JS `Map<string, Tool>`) -/

/-- The registry's view of a registered tool: its description, the JSON
Schema serialization of its zod schema (the output of
`z.toJSONSchema(schema)`, carried as data), and its `process` function. -/
structure ToolRecord where
  description : Option String := none
  inputSchemaJson : Json := Json.null
  process : Json → MResult String JsError

/-- `Map.set` of a JS `Map` represented as its insertion-ordered entry
list: an existing key keeps its position and gets the new value, a new
key is appended. -/
def jsMapSet {α : Type} (m : List (String × α)) (k : String) (v : α) : List (String × α) :=
  match m with
  | [] => [(k, v)]
  | (k0, v0) :: rest => if k0 = k then (k, v) :: rest else (k0, v0) :: jsMapSet rest k v

/-- `Map.get`: the value stored under `k`, if any. -/
def jsMapGet {α : Type} (m : List (String × α)) (k : String) : Option α :=
  match m with
  | [] => none
  | (k0, v0) :: rest => if k0 = k then some v0 else jsMapGet rest k

/-- A registry state. -/
abbrev Registry := List (String × ToolRecord)

/-- The registration step of `agent.tool` (agent.ts line 61):
`this.tools.set(name, tool)`. -/
def registerTool (m : Registry) (name : String) (rec : ToolRecord) : Registry :=
  jsMapSet m name rec

/-- A whole registration sequence applied to the empty registry the
module starts from (`tools: new Map()`). -/
def registerAll (regs : List (String × ToolRecord)) : Registry :=
  regs.foldl (fun m r => registerTool m r.1 r.2) []

/-- One entry of the `tools` array of the request body built by
`agent.run` (agent.ts lines 78-87). -/
structure ManifestEntry where
  name : String
  description : Option String
  input_schema : Json

/-- The tool manifest `agent.run` sends:
`this.tools.entries().map(([toolName, toolConfig]) => {name, description,
input_schema})`. -/
def manifest (m : Registry) : List ManifestEntry :=
  m.map fun p => { name := p.1, description := p.2.description, input_schema := p.2.inputSchemaJson }

/-- `agent.getTool` (agent.ts lines 111-119): `this.tools.get(name)`,
`err(undefined)` when absent. -/
def agentGetTool (m : Registry) (name : String) : MResult ToolRecord Unit :=
  match jsMapGet m name with
  | none => .err ()
  | some t => .ok t

/-! ## Model client (`agent.run`) -/

/-- The request body `agent.run` builds (agent.ts lines 73-88). -/
structure RequestBody where
  model : String
  max_tokens : Nat
  messages : List ConversationItem
  system : String
  tools : List ManifestEntry

/-- `config.model` from config.ts (not under src/); its exact value is
irrelevant to every claim, only that it is a fixed string. -/
def configModel : String := "claude"

/-- `buildPrompt` of the canonical agent (agent.ts lines 289-299); an
absent description renders as `undefined` under template coercion. -/
def buildPrompt (m : Registry) : String :=
  "You are a helpful assistant. You can use the following tools:\n  " ++
    String.intercalate "\n"
      (m.map fun p => "- " ++ p.1 ++ ": " ++ (p.2.description.getD "undefined")) ++
    "\n  When given a task to complete, you can use the plan tool to plan out what step's you will take and how to complete them,\n  present the plan to the user and then after the user has approved the plan, execute the plan"

/-- The network outcome observed by `agent.run`'s `fetch`: either a
non-ok HTTP response with its body text, or an ok response whose JSON
body parsed as a `Message`. -/
inductive FetchOutcome where
  | httpError (bodyText : String)
  | httpOk (body : Message)

/-- `agent.run` (agent.ts lines 70-109), with the network round-trip made
explicit as a `FetchOutcome` argument.  It returns the request body it
built, the conversation state after the call, and the `Result` the source
returns.  The source only reads `conversation.history` (into
`requestBody.messages`, then serialized by `JSON.stringify`); it performs
no write to the conversation, which the returned state reflects. -/
def agentRun (m : Registry) (conversation : Conversation) (response : FetchOutcome) :
    RequestBody × Conversation × MResult Message JsError :=
  let requestBody : RequestBody :=
    { model := configModel
      max_tokens := 1024
      messages := conversation.history
      system := buildPrompt m
      tools := manifest m }
  match response with
  | .httpError t => (requestBody, conversation, .err (jsNewError t))
  | .httpOk body => (requestBody, conversation, .ok body)

/-! ## Turn processor (the interactive loop's `handleToolUse` and
`handleAgentMessage`) -/

/-- `handleToolUse`: look the tool up via `agent.getTool`; unknown names
become `err(new Error("Unknown tool_used by claude " + name))`, otherwise
the tool's `process` runs on the block's `input`. -/
def handleToolUse (m : Registry) (message : ToolUseContent) : MResult String JsError :=
  match agentGetTool m message.name with
  | .err _ => .err (jsNewError ("Unknown tool_used by claude " ++ message.name))
  | .ok tool => tool.process message.input

/-- The assistant turn echoing a tool-use block, appended on the success
path of `handleAgentMessage` (lines 148-151). -/
def assistantEchoTurn (tu : ToolUseContent) : ConversationItem :=
  { role := .assistant, content := .blocks [.toolUse tu] }

/-- The user turn wrapping a tool result (lines 152-162 and 164-174). -/
def toolResultTurn (id content : String) (isErr : Bool) : ConversationItem :=
  { role := .user, content := .blocks [.toolResult { tool_use_id := id, content := content, is_error := isErr }] }

/-- The observable outcome of a `handleAgentMessage` run: the
conversation, the unconsumed tail of the scripted model responses, how
many times `agent.run` was invoked, and the text blocks logged to the
console in order. -/
structure LoopOut where
  conv : Conversation
  oracle : List (MResult Message JsError)
  calls : Nat
  shown : List String

/-- One level of the block-processing loop of `handleAgentMessage`
(lines 133-197), parameterised by the treatment `nested` of the recursive
`handleAgentMessage` call.  Every `agent.run` call consumes the next
entry of `oracle`, the script of model responses the network would
deliver; an exhausted script behaves like a transport failure (the
`isError(response)` branch).  A `text` block is logged; a `tool_use`
block appends the assistant echo plus a success tool-result turn when
`handleToolUse` succeeds, or only an error tool-result turn carrying the
error's `stack` when it fails, then calls `agent.run` and, on a
successful response, recurses (via `nested`) into that response's blocks
before finishing the current block list (the source `break` leaves the
`switch`, not the `for` loop). -/
def handleLevel (m : Registry)
    (nested : Conversation → List ContentBlock → List (MResult Message JsError) → Nat → List String → LoopOut) :
    Conversation → List ContentBlock → List (MResult Message JsError) → Nat → List String → LoopOut
  | conv, [], oracle, calls, shown => ⟨conv, oracle, calls, shown⟩
  | conv, .text t :: rest, oracle, calls, shown =>
      handleLevel m nested conv rest oracle calls (shown ++ [t])
  | conv, .toolUse tu :: rest, oracle, calls, shown =>
      let conv1 := match handleToolUse m tu with
        | .ok data =>
            (conv.addToHistory (assistantEchoTurn tu)).addToHistory
              (toolResultTurn tu.id data false)
        | .err e => conv.addToHistory (toolResultTurn tu.id e.stack true)
      match oracle with
      | [] => handleLevel m nested conv1 rest [] (calls + 1) shown
      | .err _ :: oracle1 => handleLevel m nested conv1 rest oracle1 (calls + 1) shown
      | .ok msg :: oracle1 =>
          let inner := nested conv1 msg.content oracle1 (calls + 1) shown
          handleLevel m nested inner.conv rest inner.oracle inner.calls inner.shown

/-- The block-processing loop at every nesting depth.  `fuel` bounds only
the depth of the nested recursive `handleAgentMessage` calls (the source
recursion is unbounded; at depth 0 a nested call is elided and processing
continues).  Every theorem below holds for every fuel value it quantifies
over, and no scenario in them reaches the elision. -/
def handleBlocks (m : Registry) :
    Nat → Conversation → List ContentBlock → List (MResult Message JsError) → Nat → List String → LoopOut
  | 0 => handleLevel m fun conv blocks oracle calls shown => ⟨conv, oracle, calls, shown⟩
  | fuel + 1 => handleLevel m (handleBlocks m fuel)

/-- `handleAgentMessage(conversation, message)`: process the message's
content blocks in response order. -/
def handleAgentMessage (m : Registry) (fuel : Nat) (conversation : Conversation)
    (message : Message) (oracle : List (MResult Message JsError)) : LoopOut :=
  handleBlocks m fuel conversation message.content oracle 0 []

/-! ## The `replace_in_file` tool (agent.ts lines 176-197) -/

/-- The filesystem as the tool observes it: path to current contents. -/
abbrev FileSys := List (String × String)

/-- `fs.readFile(path, "utf8")` against the modelled filesystem; `none`
is the missing-file rejection the handler catches. -/
def fsRead (fsState : FileSys) (path : String) : Option String :=
  jsMapGet fsState path

/-- `fs.writeFile(path, contents)`. -/
def fsWrite (fsState : FileSys) (path : String) (contents : String) : FileSys :=
  jsMapSet fsState path contents

/-- Whether `p` is a leading segment of `s`, character by character. -/
def leadsChars : List Char → List Char → Bool
  | [], _ => true
  | _ :: _, [] => false
  | p :: ps, c :: cs => p = c && leadsChars ps cs

/-- Replace the first occurrence of `pat` in the character list by
`rep`; an absent pattern leaves the list unchanged. -/
def replaceFirstChars (pat rep : List Char) : List Char → List Char
  | [] => if leadsChars pat [] then rep else []
  | c :: cs =>
      if leadsChars pat (c :: cs) then rep ++ (c :: cs).drop pat.length
      else c :: replaceFirstChars pat rep cs

/-- JS `String.prototype.replace` with a string pattern: replace the
first occurrence of `pat` by `rep` (the `$`-substitution patterns of the
replacement string never arise in the claims and are elided). -/
def replaceFirst (s pat rep : String) : String :=
  ⟨replaceFirstChars pat.data rep.data s.data⟩

/-- The parsed arguments of `replace_in_file`
(`z.object({filePath, newStr, oldStr})`, all strings). -/
structure ReplaceInFileArgs where
  filePath : String
  newStr : String
  oldStr : String

/-- The `replace_in_file` handler (agent.ts lines 184-196), with the
filesystem threaded explicitly.  It reads the file, evaluates
`fileContents.replace(oldStr, newStr)` as an expression statement — JS
strings are immutable, so the value is discarded — then writes the
*original* `fileContents` back and reports success.  A read failure is
caught and returned as `err(e)`. -/
def replaceInFileHandler (fsState : FileSys) (a : ReplaceInFileArgs) :
    FileSys × MResult String JsError :=
  match fsRead fsState a.filePath with
  | none => (fsState, .err (jsNewError ("ENOENT: no such file or directory, open " ++ a.filePath)))
  | some fileContents =>
      let discarded := replaceFirst fileContents a.oldStr a.newStr
      (fsWrite fsState a.filePath fileContents, .ok "Replaced In File successfully")

/-! ## Concrete fixtures used by witnesses and counterexamples -/

/-- The `add_numbers` registry entry as `agent.tool` stores it:
description, the JSON Schema serialization of
`z.object({a: z.number(), b: z.number()})`, and the canonical `process`
closure. -/
def addNumbersRecord : ToolRecord :=
  { description := some "Add two numbers"
    inputSchemaJson := Json.obj
      [("type", .str "object"),
       ("properties", .obj [("a", .obj [("type", .str "number")]),
                            ("b", .obj [("type", .str "number")])]),
       ("required", .arr [.str "a", .str "b"])]
    process := fun args => (addNumbersTool.process args).1 }

/-- A registry holding just `add_numbers`. -/
def demoRegistry : Registry := registerAll [("add_numbers", addNumbersRecord)]

/-- A conversation holding one user task turn. -/
def taskConversation : Conversation :=
  ⟨[{ role := .user, content := .str "add 2 and 3" }]⟩

/-- A model content block requesting a tool that is not registered. -/
def nonexistentToolUse : ToolUseContent :=
  { id := "toolu_01", input := Json.obj [("a", .num 2), ("b", .num 3)],
    name := "nonexistent_tool" }

/-- A model response consisting of that single unknown-tool request. -/
def nonexistentMessage : Message :=
  { id := "msg_02", model := configModel, content := [.toolUse nonexistentToolUse],
    stop_reason := some .toolUse, stop_sequence := none }

/-- A terminal model response: one text block, `stop_reason = end_turn`. -/
def answerMessage : Message :=
  { id := "msg_01", model := configModel, content := [.text "The answer is 4"],
    stop_reason := some .endTurn, stop_sequence := none }

/-- A conversation holding the user question of the terminal scenario. -/
def demoConversation : Conversation :=
  ⟨[{ role := .user, content := .str "What is 2 + 2?" }]⟩

/-- Schema-valid raw arguments for `add_numbers`. -/
def addArgsJson : Json := Json.obj [("a", .num 2), ("b", .num 3)]

/-- The text blocks of a content-block list, in order. -/
def textsOf : List ContentBlock → List String
  | [] => []
  | .text t :: rest => t :: textsOf rest
  | .toolUse _ :: rest => textsOf rest

/-- Whether a content-block list contains a tool-use block. -/
def hasToolUse : List ContentBlock → Bool
  | [] => false
  | .text _ :: rest => hasToolUse rest
  | .toolUse _ :: _ => true

/-! ## Registry map lemmas -/

/-- Reading the key just written. -/
theorem jsMapGet_jsMapSet_self {α : Type} (m : List (String × α)) (k : String) (v : α) :
    jsMapGet (jsMapSet m k v) k = some v := by
  induction m with
  | nil => simp [jsMapSet, jsMapGet]
  | cons kv rest ih =>
      obtain ⟨k0, v0⟩ := kv
      by_cases hk : k0 = k
      · simp [jsMapSet, hk, jsMapGet]
      · simp [jsMapSet, hk, jsMapGet, ih]

/-- `Map.set` either keeps the key sequence (existing key) or appends the
new key. -/
theorem jsMapSet_keys {α : Type} (m : List (String × α)) (k : String) (v : α) :
    (jsMapSet m k v).map Prod.fst =
      if k ∈ m.map Prod.fst then m.map Prod.fst else m.map Prod.fst ++ [k] := by
  induction m with
  | nil => simp [jsMapSet]
  | cons kv rest ih =>
      obtain ⟨k0, v0⟩ := kv
      by_cases hk : k0 = k
      · subst hk
        simp [jsMapSet]
      · have hk' : ¬(k = k0) := fun h => hk h.symm
        simp only [jsMapSet, if_neg hk, List.map_cons, ih, List.mem_cons]
        by_cases hmem : k ∈ rest.map Prod.fst
        · simp [hmem, hk']
        · simp [hmem, hk']

/-- `Map.set` preserves key uniqueness. -/
theorem jsMapSet_keys_nodup {α : Type} {m : List (String × α)}
    (hm : (m.map Prod.fst).Nodup) (k : String) (v : α) :
    ((jsMapSet m k v).map Prod.fst).Nodup := by
  rw [jsMapSet_keys]
  by_cases hmem : k ∈ m.map Prod.fst
  · simpa [hmem] using hm
  · simp [hmem, List.nodup_append, hm]

/-- The key set after `Map.set` is the old key set plus the new key. -/
theorem jsMapSet_keys_toFinset {α : Type} (m : List (String × α)) (k : String) (v : α) :
    ((jsMapSet m k v).map Prod.fst).toFinset =
      insert k (m.map Prod.fst).toFinset := by
  rw [jsMapSet_keys]
  by_cases hmem : k ∈ m.map Prod.fst
  · rw [if_pos hmem]
    exact (Finset.insert_eq_self.mpr (List.mem_toFinset.mpr hmem)).symm
  · rw [if_neg hmem]
    ext x
    simp [or_comm]

/-- The written key is present afterwards. -/
theorem jsMapSet_key_mem {α : Type} (m : List (String × α)) (k : String) (v : α) :
    k ∈ (jsMapSet m k v).map Prod.fst := by
  rw [jsMapSet_keys]
  by_cases hmem : k ∈ m.map Prod.fst
  · simp [hmem]
  · simp [hmem]

/-- Registration sequences starting from a uniquely-keyed registry keep
keys unique. -/
theorem foldl_registerTool_keys_nodup (regs : List (String × ToolRecord)) :
    ∀ (m : Registry), (m.map Prod.fst).Nodup →
      ((regs.foldl (fun acc r => registerTool acc r.1 r.2) m).map Prod.fst).Nodup := by
  induction regs with
  | nil => intro m hm; simpa using hm
  | cons r rest ih =>
      intro m hm
      exact ih (registerTool m r.1 r.2) (jsMapSet_keys_nodup hm r.1 r.2)

/-- The registry built by `registerAll` has pairwise-distinct names. -/
theorem registerAll_keys_nodup (regs : List (String × ToolRecord)) :
    ((registerAll regs).map Prod.fst).Nodup :=
  foldl_registerTool_keys_nodup regs [] (by simp)

/-- The key set accumulated by a registration sequence. -/
theorem foldl_registerTool_keys_toFinset (regs : List (String × ToolRecord)) :
    ∀ (m : Registry),
      ((regs.foldl (fun acc r => registerTool acc r.1 r.2) m).map Prod.fst).toFinset =
        (m.map Prod.fst).toFinset ∪ (regs.map Prod.fst).toFinset := by
  induction regs with
  | nil => intro m; simp
  | cons r rest ih =>
      intro m
      rw [List.foldl_cons, ih (registerTool m r.1 r.2)]
      show ((jsMapSet m r.1 r.2).map Prod.fst).toFinset ∪ _ = _
      rw [jsMapSet_keys_toFinset]
      ext x
      simp


/-- The registry built by `registerAll` holds exactly the registered
names. -/
theorem registerAll_keys_toFinset (regs : List (String × ToolRecord)) :
    ((registerAll regs).map Prod.fst).toFinset = (regs.map Prod.fst).toFinset := by
  have h := foldl_registerTool_keys_toFinset regs []
  simpa [registerAll] using h

/-! ## Turn-processor lemmas -/

/-- A block list without tool-use blocks is a pure pass: the texts are
logged in order and nothing else happens — no conversation append, no
model call, no oracle consumption. -/
theorem handleLevel_no_toolUse (m : Registry)
    (nested : Conversation → List ContentBlock → List (MResult Message JsError) → Nat → List String → LoopOut)
    (conv : Conversation) (blocks : List ContentBlock)
    (oracle : List (MResult Message JsError)) (calls : Nat) (shown : List String)
    (h : hasToolUse blocks = false) :
    handleLevel m nested conv blocks oracle calls shown =
      ⟨conv, oracle, calls, shown ++ textsOf blocks⟩ := by
  induction blocks generalizing shown with
  | nil => simp [handleLevel, textsOf]
  | cons b rest ih =>
      cases b with
      | text t =>
          have h' : hasToolUse rest = false := by simpa [hasToolUse] using h
          simp [handleLevel, ih (shown ++ [t]) h', textsOf]
      | toolUse tu => simp [hasToolUse] at h

/-- Processing a single tool-use block with an exhausted oracle: the
conversation gains the echo-plus-result turns on success, only the error
result turn on failure, and exactly one follow-up model call is made. -/
theorem handleBlocks_single_toolUse (m : Registry) (fuel : Nat) (conv : Conversation)
    (tu : ToolUseContent) :
    handleBlocks m fuel conv [.toolUse tu] [] 0 [] =
      ⟨(match handleToolUse m tu with
         | .ok data =>
             (conv.addToHistory (assistantEchoTurn tu)).addToHistory
               (toolResultTurn tu.id data false)
         | .err e => conv.addToHistory (toolResultTurn tu.id e.stack true)),
        [], 1, []⟩ := by
  cases fuel <;> cases htu : handleToolUse m tu <;> simp [handleBlocks, handleLevel, htu]

/-- The same single tool-use block when the follow-up model call fails at
the transport layer: the loop continues past the failed call (the source
`continue`) and ends with the same appended turns and one model call. -/
theorem handleBlocks_single_toolUse_errResp (m : Registry) (fuel : Nat) (conv : Conversation)
    (tu : ToolUseContent) (e : JsError) (oracle1 : List (MResult Message JsError)) :
    handleBlocks m fuel conv [.toolUse tu] (.err e :: oracle1) 0 [] =
      ⟨(match handleToolUse m tu with
         | .ok data =>
             (conv.addToHistory (assistantEchoTurn tu)).addToHistory
               (toolResultTurn tu.id data false)
         | .err e0 => conv.addToHistory (toolResultTurn tu.id e0.stack true)),
        oracle1, 1, []⟩ := by
  cases fuel <;> cases htu : handleToolUse m tu <;> simp [handleBlocks, handleLevel, htu]

/-! ## Claim theorems -/

/-- Claim C2: for every registered tool and every raw argument value that
does not satisfy the tool's declared schema, the tool's `process`
function returns a failure `Result` — it never throws — and the
registered handler is not called (the call trace is empty). -/
theorem spec_C2_invalid_args_fail (Raw Parsed : Type)
    (t : ToolSpec Raw Parsed) (args : Raw) (h : t.safeParse args = none) :
    t.process args = (.err (jsNewError (wrongArgsMsg t.name (t.showArgs args))), []) := by
  simp [ToolSpec.process, h]

/-- Witness for C2: the registered `add_numbers` tool on the
schema-invalid argument `null`. -/
theorem spec_C2_witness :
    addNumbersTool.process Json.null =
      (.err (jsNewError (wrongArgsMsg "add_numbers" "null")), []) :=
  spec_C2_invalid_args_fail Json (Int × Int) addNumbersTool Json.null rfl

/-- Claim C6: for every registered tool and every raw argument value that
satisfies the declared schema, `process` calls the registered handler
exactly once, with the validated parsed arguments, and returns exactly
the `Result` the handler produces. -/
theorem spec_C6_valid_args_invoke_handler_once (Raw Parsed : Type)
    (t : ToolSpec Raw Parsed) (args : Raw) (p : Parsed)
    (h : t.safeParse args = some p) :
    t.process args = (t.handler p, [p]) := by
  simp [ToolSpec.process, h]

/-- Witness for C6: `add_numbers` on `{a: 2, b: 3}` invokes its handler
once with `(2, 3)` and propagates the handler's `ok "5"`. -/
theorem spec_C6_witness :
    addNumbersTool.process addArgsJson = (addNumbersTool.handler (2, 3), [(2, 3)]) ∧
    addNumbersTool.handler (2, 3) = .ok "5" :=
  ⟨spec_C6_valid_args_invoke_handler_once Json (Int × Int) addNumbersTool addArgsJson (2, 3) rfl,
   rfl⟩

/-- Claim C9: the two agent variants' tool layers disagree on invalid
input — the event-emitter variant's `process` lets the validation error
escape (the call rejects) where the canonical variant returns a typed
failure on the same input — while on schema-valid inputs both invoke
their handler with the parsed arguments. -/
theorem spec_C9_variant_divergence :
    (addNumbersToolE.process Json.null = Except.error ZodError.invalid ∧
      (addNumbersTool.process Json.null).1.isError = true ∧
      (addNumbersTool.process Json.null).2 = []) ∧
    (∀ (Raw Parsed K E : Type) (t : ToolSpec Raw Parsed) (te : ToolSpecE Raw Parsed K E)
        (args : Raw) (p : Parsed),
        t.safeParse args = some p → te.safeParse args = some p →
        t.process args = (t.handler p, [p]) ∧
        te.process args = Except.ok (te.handler p, [p])) := by
  refine ⟨⟨rfl, rfl, rfl⟩, ?_⟩
  intro Raw Parsed K E t te args p h he
  exact ⟨by simp [ToolSpec.process, h], by simp [ToolSpecE.process, he]⟩

/-- Witness for C9's valid-input half: both `add_numbers` variants invoke
their handler on the parsed `(2, 3)`. -/
theorem spec_C9_witness :
    addNumbersTool.process addArgsJson = (addNumbersTool.handler (2, 3), [(2, 3)]) ∧
    addNumbersToolE.process addArgsJson = Except.ok (addNumbersToolE.handler (2, 3), [(2, 3)]) :=
  spec_C9_variant_divergence.2 Json (Int × Int) Int JsError addNumbersTool addNumbersToolE
    addArgsJson (2, 3) rfl rfl

/-- Claim C10: whenever `replace_in_file` runs with schema-valid
arguments and the file read succeeds, the content written back equals the
content read (the replacement is computed but discarded), yet the tool
reports `Replaced In File successfully`. -/
theorem spec_C10_replace_in_file_noop (fsState : FileSys) (a : ReplaceInFileArgs) (c : String)
    (h : fsRead fsState a.filePath = some c) :
    replaceInFileHandler fsState a =
      (fsWrite fsState a.filePath c, .ok "Replaced In File successfully") ∧
    fsRead (replaceInFileHandler fsState a).1 a.filePath = some c := by
  have h' : jsMapGet fsState a.filePath = some c := h
  constructor
  · simp [replaceInFileHandler, fsRead, h']
  · simp [replaceInFileHandler, fsRead, fsWrite, h', jsMapGet_jsMapSet_self]

/-- Witness for C10: replacing `hello` by `bye` in a file reading
`hello world` leaves the stored content `hello world` and reports
success, although the discarded replacement differs from the original. -/
theorem spec_C10_witness :
    (replaceInFileHandler [("notes.txt", "hello world")] ⟨"notes.txt", "bye", "hello"⟩ =
        (fsWrite [("notes.txt", "hello world")] "notes.txt" "hello world",
          .ok "Replaced In File successfully") ∧
      fsRead (replaceInFileHandler [("notes.txt", "hello world")]
          ⟨"notes.txt", "bye", "hello"⟩).1 "notes.txt" = some "hello world") ∧
    replaceFirst "hello world" "hello" "bye" ≠ "hello world" :=
  ⟨spec_C10_replace_in_file_noop [("notes.txt", "hello world")]
      ⟨"notes.txt", "bye", "hello"⟩ "hello world" rfl,
   by decide⟩

/-- Claim C4: the turn sequence `agent.run` transmits is exactly the
Conversation's turn log, and the call leaves the Conversation's history
unchanged — the model client cannot mutate Conversation state. -/
theorem spec_C4_model_client_preserves_history (m : Registry) (conversation : Conversation)
    (response : FetchOutcome) :
    (agentRun m conversation response).2.1 = conversation ∧
    (agentRun m conversation response).1.messages = conversation.history := by
  cases response <;> exact ⟨rfl, rfl⟩

/-- Claim C7: registering two tools under one name leaves exactly one
registry entry for that name, holding the later registration; and after
any sequence of registrations the manifest sent to the model has length
equal to the number of unique registered names. -/
theorem spec_C7_duplicate_registration_last_wins (regs : List (String × ToolRecord))
    (n : String) (t1 t2 : ToolRecord) :
    jsMapGet (registerTool (registerTool (registerAll regs) n t1) n t2) n = some t2 ∧
    ((registerTool (registerTool (registerAll regs) n t1) n t2).map Prod.fst).count n = 1 ∧
    (manifest (registerAll regs)).length = ((regs.map Prod.fst).dedup).length := by
  refine ⟨jsMapGet_jsMapSet_self _ n t2, ?_, ?_⟩
  · have hnodup :
        (((registerTool (registerTool (registerAll regs) n t1) n t2)).map Prod.fst).Nodup :=
      jsMapSet_keys_nodup (jsMapSet_keys_nodup (registerAll_keys_nodup regs) n t1) n t2
    have hmem : n ∈ ((registerTool (registerTool (registerAll regs) n t1) n t2)).map Prod.fst :=
      jsMapSet_key_mem _ n t2
    exact List.count_eq_one_of_mem hnodup hmem
  · have h1 : (manifest (registerAll regs)).length = ((registerAll regs).map Prod.fst).length := by
      simp [manifest]
    have h2 : ((registerAll regs).map Prod.fst).length =
        ((registerAll regs).map Prod.fst).toFinset.card :=
      (List.toFinset_card_of_nodup (registerAll_keys_nodup regs)).symm
    rw [h1, h2, registerAll_keys_toFinset, List.card_toFinset]

/-- Claim C3 (amended): a model response with zero tool-use blocks makes
zero Conversation appends — its text is shown on the console but never
recorded — and zero additional model calls; the processor does not
recurse and control returns with the conversation, and the response
script, untouched. -/
theorem spec_C3_text_only_no_append_no_calls (m : Registry) (fuel : Nat)
    (conversation : Conversation) (message : Message)
    (oracle : List (MResult Message JsError))
    (h : hasToolUse message.content = false) :
    handleAgentMessage m fuel conversation message oracle =
      ⟨conversation, oracle, 0, textsOf message.content⟩ := by
  have key := fun nested =>
    handleLevel_no_toolUse m nested conversation message.content oracle 0 [] h
  cases fuel with
  | zero => simpa [handleAgentMessage, handleBlocks] using key _
  | succ fuel' => simpa [handleAgentMessage, handleBlocks] using key _

/-- Witness for C3 (amended) at the concrete scenario: the response is a
single text block `The answer is 4` with `stop_reason = end_turn`. -/
theorem spec_C3_witness :
    handleAgentMessage demoRegistry 5 demoConversation answerMessage [] =
      ⟨demoConversation, [], 0, ["The answer is 4"]⟩ :=
  spec_C3_text_only_no_append_no_calls demoRegistry 5 demoConversation answerMessage [] rfl

/-- Counterexample to C3 as stated: on the concrete scenario the
processing makes zero Conversation appends, not exactly one. -/
theorem spec_C3_counterexample :
    (handleAgentMessage demoRegistry 5 demoConversation answerMessage
        []).conv.history.length ≠ demoConversation.history.length + 1 := by
  decide

/-- Claim C8: for a processed tool-use block the appended tool-result
turn's `tool_use_id` equals the id of the request that triggered it, in
both the success and the error case; the final turn of the conversation
read back is that tool-result turn. -/
theorem spec_C8_tool_result_id_roundtrip (m : Registry) (fuel : Nat)
    (conversation : Conversation) (tu : ToolUseContent)
    (msgId msgModel : String) (sr : Option StopReason) (ss : Option String) :
    (handleAgentMessage m fuel conversation
        { id := msgId, model := msgModel, content := [.toolUse tu],
          stop_reason := sr, stop_sequence := ss } []).conv.history =
      (match handleToolUse m tu with
        | .ok data =>
            conversation.history ++ [assistantEchoTurn tu, toolResultTurn tu.id data false]
        | .err e => conversation.history ++ [toolResultTurn tu.id e.stack true]) ∧
    ∃ content isErr,
      (handleAgentMessage m fuel conversation
          { id := msgId, model := msgModel, content := [.toolUse tu],
            stop_reason := sr, stop_sequence := ss } []).conv.history.getLast? =
        some (toolResultTurn tu.id content isErr) := by
  have hsingle := handleBlocks_single_toolUse m fuel conversation tu
  constructor
  · rw [handleAgentMessage, hsingle]
    cases htu : handleToolUse m tu <;> simp [htu, Conversation.addToHistory]
  · rw [handleAgentMessage, hsingle]
    cases htu : handleToolUse m tu with
    | ok d =>
        exact ⟨d, false, by simp [htu, Conversation.addToHistory]⟩
    | err e =>
        exact ⟨e.stack, true, by simp [htu, Conversation.addToHistory]⟩

/-- Claim C5: when a content block requests an unregistered tool name,
the processor appends a tool-result turn with `is_error = true` whose
message names the unknown tool, does not throw, and issues exactly one
follow-up model call. -/
theorem spec_C5_unknown_tool_recoverable (m : Registry) (fuel : Nat)
    (conversation : Conversation) (tu : ToolUseContent)
    (msgId msgModel : String) (sr : Option StopReason) (ss : Option String) (e : JsError)
    (h : jsMapGet m tu.name = none) :
    handleAgentMessage m fuel conversation
        { id := msgId, model := msgModel, content := [.toolUse tu],
          stop_reason := sr, stop_sequence := ss } [.err e] =
      ⟨conversation.addToHistory
          (toolResultTurn tu.id ("Error: " ++ ("Unknown tool_used by claude " ++ tu.name)) true),
        [], 1, []⟩ := by
  have htu : handleToolUse m tu =
      .err (jsNewError ("Unknown tool_used by claude " ++ tu.name)) := by
    simp [handleToolUse, agentGetTool, h]
  rw [handleAgentMessage, handleBlocks_single_toolUse_errResp]
  simp [htu, jsNewError]

/-- Witness for C5: the model requests `nonexistent_tool` against a
registry holding only `add_numbers`. -/
theorem spec_C5_witness :
    handleAgentMessage demoRegistry 3 taskConversation nonexistentMessage
        [.err (jsNewError "transport")] =
      ⟨taskConversation.addToHistory
          (toolResultTurn "toolu_01" "Error: Unknown tool_used by claude nonexistent_tool" true),
        [], 1, []⟩ :=
  spec_C5_unknown_tool_recoverable demoRegistry 3 taskConversation nonexistentToolUse
    "msg_02" configModel (some .toolUse) none (jsNewError "transport") rfl

/-- Claim C1 fails on the code: at this failing input — an unknown-tool
request processed from a one-turn conversation — the appended tool-result
turn is preceded by a *user* turn; the error path of `handleAgentMessage`
appends no assistant turn carrying the matching tool-use request, so no
turn of the final history is an assistant turn at all. -/
theorem spec_C1_error_result_lacks_matching_request :
    (handleAgentMessage demoRegistry 5 taskConversation nonexistentMessage
        [.err (jsNewError "transport")]).conv.history =
      [{ role := .user, content := .str "add 2 and 3" },
        toolResultTurn "toolu_01" "Error: Unknown tool_used by claude nonexistent_tool" true] ∧
    (handleAgentMessage demoRegistry 5 taskConversation nonexistentMessage
        [.err (jsNewError "transport")]).conv.history.map ConversationItem.role =
      [Role.user, Role.user] :=
  ⟨rfl, rfl⟩
